import Mathlib

/-
Verification of the ContextIQ conversational chatbot core: the Conversation
Store (src/database.py, file-backed branch — the branch whose logic is fully
local to the repository) and the Response Orchestrator (src/llm_engine.py).

Modelling conventions:
- Timestamps (datetime.utcnow()) are modelled as a `Nat` clock value passed
  to each mutating operation; the store only ever compares timestamps.
- The Python dict `self.conversations` (insertion-ordered, string keys
  `str(id)`) is modelled as an association list `List (Nat × ConversationRecord)`
  in insertion order; `str` is injective on ints, so `Nat` keys are faithful.
- `str.lower()` is modelled character-wise via `Char.toLower`, and Python's
  substring test `needle in haystack` as list-infix on the character lists.
- `list.sort(key=..., reverse=True)` is a stable descending sort; it is
  modelled by a stable insertion sort.
-/

namespace ContextIQ

/-- Model of Python `s.lower()`: character-wise lowercasing. -/
def strLower (s : String) : String := ⟨s.data.map Char.toLower⟩

/-- Model of Python `needle in haystack` (substring test on strings). -/
def strInStr (needle hay : String) : Bool := decide (needle.data <:+: hay.data)

/-- A chat message as stored by the UI layer (src/app.py): a dict with keys
`role` and `content` (the optional float `response_time` on assistant
messages is UI-only metadata and is not inspected by any store operation;
it is elided). -/
structure Message where
  role : String
  content : String
deriving DecidableEq

/-- JSON string escaping for one character, as `json.dumps` performs on the
message dicts (quote and backslash are the escapes that can arise here). -/
def jsonEscapeChar (c : Char) : String :=
  if c = '"' then "\\\"" else if c = '\\' then "\\\\" else String.singleton c

def jsonEscape (s : String) : String := String.join (s.data.map jsonEscapeChar)

/-- Model of `json.dumps` on one message dict. -/
def dumpsMessage (m : Message) : String :=
  "\x7b\"role\": \"" ++ jsonEscape m.role ++ "\", \"content\": \"" ++
    jsonEscape m.content ++ "\"\x7d"

/-- Model of `json.dumps(conv_data[\x27messages\x27])`: the serialized message
list that `search_conversations` matches against. -/
def dumpsMessages (ms : List Message) : String :=
  "[" ++ String.intercalate ", " (ms.map dumpsMessage) ++ "]"

/-- One record of the file-backed store: the dict stored under
`self.conversations[conv_id]` (src/database.py lines 99-107). -/
structure ConversationRecord where
  id : Nat
  title : String
  model : String
  created_at : Nat
  updated_at : Nat
  message_count : Nat
  messages : List Message
deriving DecidableEq

/-- The summary dicts returned by `get_all_conversations` /
`search_conversations`: all fields except the message bodies. -/
structure ConversationSummary where
  id : Nat
  title : String
  created_at : Nat
  updated_at : Nat
  model : String
  message_count : Nat
deriving DecidableEq

def toSummary (r : ConversationRecord) : ConversationSummary :=
  { id := r.id, title := r.title, created_at := r.created_at,
    updated_at := r.updated_at, model := r.model,
    message_count := r.message_count }

/-- The file-backed store state: `self.conversations`, an insertion-ordered
dict from id to record. -/
structure Database where
  conversations : List (Nat × ConversationRecord)
deriving DecidableEq

def Database.empty : Database := ⟨[]⟩

/-- Model of `Database._get_next_id` (src/database.py lines 79-83):
1 on an empty store, otherwise `max(int(k) for k in keys) + 1`.
(`foldl max 0` equals the maximum of a nonempty list of naturals.) -/
def Database.getNextId (db : Database) : Nat :=
  if db.conversations.isEmpty then 1
  else (db.conversations.map Prod.fst).foldl max 0 + 1

/-- Model of `Database.create_conversation` (file branch, lines 97-109):
allocates `_get_next_id()`, inserts an empty-message record (a new dict key
is appended at the end in insertion order), returns the new id. -/
def Database.create_conversation (db : Database) (title model : String)
    (now : Nat) : Database × Nat :=
  let conv_id := db.getNextId
  (⟨db.conversations ++ [(conv_id,
      { id := conv_id, title := title, model := model, created_at := now,
        updated_at := now, message_count := 0, messages := [] })]⟩,
   conv_id)

/-- The three field assignments `update_conversation` performs on the
addressed record (lines 125-127). -/
def updateRecord (messages : List Message) (now : Nat)
    (r : ConversationRecord) : ConversationRecord :=
  { r with
      messages := messages,
      message_count := messages.length,
      updated_at := now }

/-- Model of `Database.update_conversation` (file branch, lines 122-130):
if the key exists, replace that record's messages, message_count and
updated_at in place (dict assignment to an existing key keeps its position);
otherwise return false and leave the store untouched. -/
def Database.update_conversation (db : Database) (conv_id : Nat)
    (messages : List Message) (now : Nat) : Database × Bool :=
  if (db.conversations.lookup conv_id).isSome then
    (⟨db.conversations.map fun p =>
        if p.1 = conv_id then (p.1, updateRecord messages now p.2)
        else p⟩, true)
  else (db, false)

/-- Model of `Database.get_conversation` (file branch, lines 147-155):
returns the record under the key, or absence. (The source re-parses the
ISO timestamp strings into datetimes; timestamps here are already `Nat`.) -/
def Database.get_conversation (db : Database) (conv_id : Nat) :
    Option ConversationRecord :=
  db.conversations.lookup conv_id

/-- Stable insertion (descending by `updated_at`) used to model Python's
stable `list.sort(key=lambda x: x[\x27updated_at\x27], reverse=True)`:
an element is placed before the first element whose key is `≤` its own,
so equal keys keep their original relative order. -/
def insertByUpdatedAtDesc (c : ConversationSummary) :
    List ConversationSummary → List ConversationSummary
  | [] => [c]
  | d :: ds =>
    if d.updated_at ≤ c.updated_at then c :: d :: ds
    else d :: insertByUpdatedAtDesc c ds

def sortByUpdatedAtDesc (l : List ConversationSummary) :
    List ConversationSummary :=
  l.foldr insertByUpdatedAtDesc []

/-- Model of `Database.get_all_conversations` (file branch, lines 169-182):
summaries of all records in dict iteration (= insertion) order, then the
stable sort by `updated_at` descending. -/
def Database.get_all_conversations (db : Database) :
    List ConversationSummary :=
  sortByUpdatedAtDesc (db.conversations.map fun p => toSummary p.2)

/-- Model of `Database.delete_conversation` (file branch, lines 193-199). -/
def Database.delete_conversation (db : Database) (conv_id : Nat) :
    Database × Bool :=
  if (db.conversations.lookup conv_id).isSome then
    (⟨db.conversations.filter fun p => p.1 != conv_id⟩, true)
  else (db, false)

/-- The per-record match test of `Database.search_conversations` (file
branch, lines 222-236): `query_lower in title.lower()` or, failing that,
`query_lower in json.dumps(messages).lower()`. -/
def matchesQuery (query_lower : String) (r : ConversationRecord) : Bool :=
  strInStr query_lower (strLower r.title) ||
    strInStr query_lower (strLower (dumpsMessages r.messages))

/-- Model of `Database.search_conversations` (file branch, lines 219-248):
the loop appends at most one summary per record (the `continue` after a
title match prevents double-adding), i.e. a `filterMap`; then the same
stable sort by `updated_at` descending as `get_all_conversations`. -/
def Database.search_conversations (db : Database) (query : String) :
    List ConversationSummary :=
  sortByUpdatedAtDesc (db.conversations.filterMap fun p =>
    if matchesQuery (strLower query) p.2 then some (toSummary p.2) else none)

/-- One mutating store operation, for stating properties over arbitrary
operation sequences. -/
inductive StoreOp where
  | create (title model : String) (now : Nat)
  | update (conv_id : Nat) (messages : List Message) (now : Nat)
  | delete (conv_id : Nat)

def applyOp (db : Database) : StoreOp → Database
  | .create t m now => (db.create_conversation t m now).1
  | .update cid msgs now => (db.update_conversation cid msgs now).1
  | .delete cid => (db.delete_conversation cid).1

def applyOps (db : Database) (ops : List StoreOp) : Database :=
  ops.foldl applyOp db

/-! ### Response Orchestrator (src/llm_engine.py)

The remote client (`ChatGroq`) is modelled as a function `invoke` supplied
to `get_ai_response`: it receives the (possibly parameter-mutated) client
and the formatted message list and either returns the response content
(`Except.ok`) or raises (`Except.error` carrying `str(e)`). The module-level
globals `llm` and `current_config` form `EngineState`. -/

/-- The default persona text of `get_prompt_template`
(src/llm_engine.py lines 100-105). -/
def default_prompt : String :=
  "You are ContextIQ, an intelligent, professional, and helpful AI assistant. " ++
  "Answer clearly, concisely, and accurately. Provide detailed explanations when needed. " ++
  "Use proper formatting with markdown when appropriate. " ++
  "If you are unsure about something, honestly say you do not know."

/-- One entry of the ordered prompt list: the system message, one spliced
history entry (`MessagesPlaceholder`), or the final human turn. History
entries are opaque values of a type `H`. -/
inductive PromptMsg (H : Type) where
  | system (content : String)
  | hist (entry : H)
  | human (content : String)
deriving DecidableEq

def isSystemMsg {H : Type} : PromptMsg H → Bool
  | .system _ => true
  | _ => false

/-- Python `system_prompt or default_prompt` (line 108): `None` and the
empty string are both falsy, so both fall back to the default. -/
def systemTextOf (system_prompt : Option String) : String :=
  match system_prompt with
  | some s => if s = "" then default_prompt else s
  | none => default_prompt

/-- The ordered message list built by `get_prompt_template` (lines 107-111)
and `prompt.format_messages(history=chat_history[:-1], input=user_input)`
(lines 142-145): system message, all history entries but the most recent,
then the new human input. -/
def format_messages {H : Type} (system_prompt : Option String)
    (chat_history : List H) (user_input : String) : List (PromptMsg H) :=
  PromptMsg.system (systemTextOf system_prompt) ::
    (chat_history.dropLast.map PromptMsg.hist ++ [PromptMsg.human user_input])

/-- The bound remote client: the `ChatGroq` fields that `get_ai_response`
reads or mutates. `temperature` is a float that is only compared for
inequality and reassigned, so `Rat` models the operations performed on it. -/
structure LLMClient where
  model : String
  temperature : Rat
  max_tokens : Nat
  streaming : Bool
deriving DecidableEq

/-- The `current_config` dict written by a successful `initialize_llm`
(lines 85-91). -/
structure ModelConfig where
  model : String
  temperature : Rat
  max_tokens : Nat
  system_prompt : Option String
  streaming : Bool
deriving DecidableEq

/-- The module-level mutable state of src/llm_engine.py: `llm` (None before
any successful initialization) and `current_config`. -/
structure EngineState where
  llm : Option LLMClient
  current_config : ModelConfig

/-- Advisory text for rate-limit failures (lines 160-165). -/
def rate_limit_msg : String :=
  "⚠️ **Rate Limit Reached**\n\n" ++
  "Please wait a moment and try again. Groq has generous free tier limits, " ++
  "but they do apply per minute."

/-- Advisory text for credential/authentication failures (lines 166-170). -/
def api_key_msg : String :=
  "⚠️ **API Key Issue**\n\n" ++
  "Please check that your GROQ_API_KEY is correctly set in Streamlit secrets."

/-- Advisory text for timeout failures (lines 171-175). -/
def timeout_msg : String :=
  "⚠️ **Request Timeout**\n\n" ++
  "The request took too long. Please try again or select a different model."

/-- Advisory text for model-availability failures (lines 176-181); carries
`current_config.get(\x27model\x27)`. -/
def model_error_msg (model : String) : String :=
  "⚠️ **Model Error**\n\nThe model \x27" ++ model ++
    "\x27 may not be available. Try selecting a different model from the sidebar."

/-- The generic advisory (line 183); carries the raw error text. -/
def generic_error_msg (e : String) : String :=
  "⚠️ **Error**: " ++ e ++
    "\n\nPlease try again or contact support if the issue persists."

/-- The except-block of `get_ai_response` (lines 156-183): lowercase the
error text and match it against the known substrings in source order. -/
def classify_error (cfg : ModelConfig) (e : String) : String :=
  let error_str := strLower e
  if strInStr "rate_limit" error_str || strInStr "rate limit" error_str then
    rate_limit_msg
  else if strInStr "api_key" error_str || strInStr "authentication" error_str then
    api_key_msg
  else if strInStr "timeout" error_str then
    timeout_msg
  else if strInStr "model" error_str || strInStr "not found" error_str then
    model_error_msg cfg.model
  else
    generic_error_msg e

/-- Outcome of one `get_ai_response` call: the value returned or the
exception propagated, the message list of each remote `llm.invoke` call
performed, and the module state afterwards. -/
structure GenOutcome (H : Type) where
  result : Except String String
  remote_calls : List (List (PromptMsg H))
  state : EngineState

/-- Model of `get_ai_response` (lines 115-183). `llm is None` raises
RuntimeError before anything else. Otherwise the client parameters are
mutated in place when overrides differ from `current_config`, the prompt is
formatted, and `llm.invoke(messages)` is called once — the streaming and
non-streaming branches perform the same single invoke and return
`response.content` (the `StreamHandler` only mirrors tokens to a UI
container), so they are a single path here. Any error raised in the try
block is converted to an advisory text that is returned normally. -/
def get_ai_response {H : Type} (st : EngineState)
    (invoke : LLMClient → List (PromptMsg H) → Except String String)
    (user_input : String) (chat_history : List H)
    (temperature : Option Rat) (max_tokens : Option Nat)
    (system_prompt : Option String) : GenOutcome H :=
  match st.llm with
  | none => ⟨Except.error "LLM not initialized. Please restart the app.", [], st⟩
  | some c0 =>
    let c1 := match temperature with
      | some t =>
        if t ≠ st.current_config.temperature then { c0 with temperature := t }
        else c0
      | none => c0
    let c2 := match max_tokens with
      | some mt =>
        if mt ≠ st.current_config.max_tokens then { c1 with max_tokens := mt }
        else c1
      | none => c1
    let messages := format_messages system_prompt chat_history user_input
    let result := match invoke c2 messages with
      | Except.ok content => Except.ok content
      | Except.error e => Except.ok (classify_error st.current_config e)
    ⟨result, [messages], { st with llm := some c2 }⟩

/-- Model of `initialize_llm` (lines 41-96): a missing credential raises
ValueError; otherwise a fresh client is bound and `current_config` replaced
wholesale. (`model_mapping.get(model, model)` maps every model name to
itself, so it is the identity.) -/
def init_llm (api_key : Option String) (model : String) (temperature : Rat)
    (max_tokens : Nat) (system_prompt : Option String) (streaming : Bool) :
    Except String EngineState :=
  match api_key with
  | none => Except.error ("GROQ_API_KEY not found in Streamlit secrets. " ++
      "Please add it in your Streamlit Cloud dashboard or .streamlit/secrets.toml")
  | some _ => Except.ok
      { llm := some { model := model, temperature := temperature,
                      max_tokens := max_tokens, streaming := streaming },
        current_config := { model := model, temperature := temperature,
                            max_tokens := max_tokens,
                            system_prompt := system_prompt,
                            streaming := streaming } }

/-! ### Helper lemmas about the stable sort -/

theorem insertByUpdatedAtDesc_perm (c : ConversationSummary)
    (l : List ConversationSummary) :
    (insertByUpdatedAtDesc c l).Perm (c :: l) := by
  induction l with
  | nil => simp [insertByUpdatedAtDesc]
  | cons d ds ih =>
    by_cases h : d.updated_at ≤ c.updated_at
    · simp [insertByUpdatedAtDesc, h]
    · simp only [insertByUpdatedAtDesc, if_neg h]
      exact (ih.cons d).trans (List.Perm.swap c d ds)

theorem sortByUpdatedAtDesc_perm (l : List ConversationSummary) :
    (sortByUpdatedAtDesc l).Perm l := by
  induction l with
  | nil => simp [sortByUpdatedAtDesc]
  | cons x xs ih =>
    exact (insertByUpdatedAtDesc_perm x (sortByUpdatedAtDesc xs)).trans (ih.cons x)

theorem mem_insertByUpdatedAtDesc {a c : ConversationSummary}
    {l : List ConversationSummary} :
    a ∈ insertByUpdatedAtDesc c l ↔ a = c ∨ a ∈ l := by
  rw [(insertByUpdatedAtDesc_perm c l).mem_iff]
  simp

theorem insertByUpdatedAtDesc_sorted (c : ConversationSummary)
    (l : List ConversationSummary)
    (h : l.Pairwise (fun a b => b.updated_at ≤ a.updated_at)) :
    (insertByUpdatedAtDesc c l).Pairwise
      (fun a b => b.updated_at ≤ a.updated_at) := by
  induction l with
  | nil => simp [insertByUpdatedAtDesc]
  | cons d ds ih =>
    rcases List.pairwise_cons.mp h with ⟨hd, hds⟩
    by_cases hc : d.updated_at ≤ c.updated_at
    · simp only [insertByUpdatedAtDesc, if_pos hc]
      refine List.pairwise_cons.mpr ⟨?_, h⟩
      intro x hx
      rcases List.mem_cons.mp hx with rfl | hx
      · exact hc
      · exact le_trans (hd x hx) hc
    · simp only [insertByUpdatedAtDesc, if_neg hc]
      refine List.pairwise_cons.mpr ⟨?_, ih hds⟩
      intro x hx
      rcases mem_insertByUpdatedAtDesc.mp hx with rfl | hx
      · exact le_of_not_le hc
      · exact hd x hx

theorem sortByUpdatedAtDesc_sorted (l : List ConversationSummary) :
    (sortByUpdatedAtDesc l).Pairwise (fun a b => b.updated_at ≤ a.updated_at) := by
  induction l with
  | nil => simp [sortByUpdatedAtDesc]
  | cons x xs ih => exact insertByUpdatedAtDesc_sorted x (sortByUpdatedAtDesc xs) ih

theorem filter_insertByUpdatedAtDesc (c : ConversationSummary)
    (l : List ConversationSummary) (t : Nat) :
    (insertByUpdatedAtDesc c l).filter (fun s => s.updated_at == t)
      = (c :: l).filter (fun s => s.updated_at == t) := by
  induction l with
  | nil => simp [insertByUpdatedAtDesc]
  | cons d ds ih =>
    by_cases hc : d.updated_at ≤ c.updated_at
    · simp [insertByUpdatedAtDesc, hc]
    · have hdc : c.updated_at < d.updated_at := lt_of_not_le hc
      simp only [insertByUpdatedAtDesc, if_neg hc]
      by_cases hct : c.updated_at = t
      · have hdt : (d.updated_at == t) = false := by
          simp only [beq_eq_false_iff_ne, ne_eq]
          exact fun hdt => absurd (hct ▸ hdt) (ne_of_gt hdc)
        simp only [List.filter_cons, hdt, ih, hct]
        simp
      · have hcf : (c.updated_at == t) = false := by
          simpa [beq_eq_false_iff_ne, ne_eq] using hct
        simp only [List.filter_cons, ih, hcf]
        simp [List.filter_cons]

theorem filter_sortByUpdatedAtDesc (l : List ConversationSummary) (t : Nat) :
    (sortByUpdatedAtDesc l).filter (fun s => s.updated_at == t)
      = l.filter (fun s => s.updated_at == t) := by
  induction l with
  | nil => simp [sortByUpdatedAtDesc]
  | cons x xs ih =>
    calc (insertByUpdatedAtDesc x (sortByUpdatedAtDesc xs)).filter
            (fun s => s.updated_at == t)
        = (x :: sortByUpdatedAtDesc xs).filter (fun s => s.updated_at == t) :=
          filter_insertByUpdatedAtDesc x (sortByUpdatedAtDesc xs) t
      _ = (x :: xs).filter (fun s => s.updated_at == t) := by
          simp only [List.filter_cons, ih]

/-! ### Helper lemmas about ids and lookups -/

theorem foldl_max_le_init (l : List Nat) (a : Nat) : a ≤ l.foldl max a := by
  induction l generalizing a with
  | nil => simp
  | cons x xs ih => exact le_trans (le_max_left a x) (ih (max a x))

theorem le_foldl_max (l : List Nat) (a : Nat) : ∀ k ∈ l, k ≤ l.foldl max a := by
  induction l generalizing a with
  | nil => intro k hk; cases hk
  | cons x xs ih =>
    intro k hk
    rcases List.mem_cons.mp hk with rfl | hk
    · exact le_trans (le_max_right a k) (foldl_max_le_init xs (max a k))
    · exact ih (max a x) k hk

theorem getNextId_gt (db : Database) :
    ∀ k ∈ db.conversations.map Prod.fst, k < db.getNextId := by
  intro k hk
  have hne : db.conversations.isEmpty = false := by
    cases hdb : db.conversations with
    | nil => rw [hdb] at hk; cases hk
    | cons p ps => simp [hdb]
  simp only [Database.getNextId, hne, Bool.false_eq_true, if_false]
  exact Nat.lt_succ_of_le (le_foldl_max _ 0 k hk)

theorem lookup_cons {R : Type} (a : Nat) (b : R) (ps : List (Nat × R)) (k : Nat) :
    ((a, b) :: ps).lookup k = if k = a then some b else ps.lookup k := by
  by_cases h : k = a
  · subst h
    simp [List.lookup]
  · have hb : (k == a) = false := by rwa [beq_eq_false_iff_ne]
    simp [List.lookup, hb, h]

theorem lookup_map_update {R : Type} (l : List (Nat × R)) (cid : Nat) (f : R → R) :
    (l.map fun p => if p.1 = cid then (p.1, f p.2) else p).lookup cid
      = (l.lookup cid).map f := by
  induction l with
  | nil => simp
  | cons p ps ih =>
    obtain ⟨a, b⟩ := p
    simp only [List.map_cons]
    by_cases h : a = cid
    · subst h
      rw [if_pos rfl, lookup_cons, lookup_cons, if_pos rfl, if_pos rfl]
      rfl
    · have hne : cid ≠ a := fun he => h he.symm
      rw [if_neg h, lookup_cons, lookup_cons, if_neg hne, if_neg hne, ih]

theorem lookup_map_update_other {R : Type} (l : List (Nat × R)) (cid k : Nat)
    (f : R → R) (hk : k ≠ cid) :
    (l.map fun p => if p.1 = cid then (p.1, f p.2) else p).lookup k
      = l.lookup k := by
  induction l with
  | nil => simp
  | cons p ps ih =>
    obtain ⟨a, b⟩ := p
    simp only [List.map_cons]
    by_cases h : a = cid
    · subst h
      have hka : k ≠ a := hk
      rw [if_pos rfl, lookup_cons, lookup_cons, if_neg hka, if_neg hka, ih]
    · by_cases hkp : k = a
      · subst hkp
        rw [if_neg h, lookup_cons, lookup_cons, if_pos rfl, if_pos rfl]
      · rw [if_neg h, lookup_cons, lookup_cons, if_neg hkp, if_neg hkp, ih]

theorem filterMap_if_eq_filter_map {α β : Type} (l : List α) (c : α → Bool)
    (g : α → β) :
    (l.filterMap fun a => if c a then some (g a) else none)
      = (l.filter c).map g := by
  induction l with
  | nil => simp
  | cons x xs ih =>
    by_cases h : c x
    · simp [List.filterMap_cons, List.filter_cons, h, ih]
    · simp [List.filterMap_cons, List.filter_cons, h, ih]

theorem lookup_isSome_of_mem_keys {R : Type} (l : List (Nat × R)) (k : Nat)
    (h : k ∈ l.map Prod.fst) : (l.lookup k).isSome = true := by
  induction l with
  | nil => cases h
  | cons p ps ih =>
    obtain ⟨a, b⟩ := p
    rw [lookup_cons]
    by_cases hk : k = a
    · rw [if_pos hk]; rfl
    · rw [if_neg hk]
      apply ih
      rcases List.mem_cons.mp h with he | hm
      · exact absurd he hk
      · exact hm

theorem data_append (s t : String) : (s ++ t).data = s.data ++ t.data := rfl

/-- Two strings differing at a character position inside the fixed prefix
of the first are distinct, whatever is spliced in after that prefix. -/
theorem concat_ne_of_char (A B R : String) (i : Nat)
    (hi : i < A.data.length) (hc : A.data[i]? ≠ R.data[i]?) (m : String) :
    A ++ m ++ B ≠ R := by
  intro h
  apply hc
  have hd : A.data ++ (m.data ++ B.data) = R.data := by
    have h2 : ((A ++ m) ++ B).data = R.data := congrArg String.data h
    rw [data_append, data_append, List.append_assoc] at h2
    exact h2
  calc A.data[i]? = (A.data ++ (m.data ++ B.data))[i]? :=
        (List.getElem?_append_left hi).symm
    _ = R.data[i]? := by rw [hd]

/-! ### C2: messageCount equals the length of the messages list -/

theorem countInvariant_applyOp (db : Database)
    (h : ∀ p ∈ db.conversations, p.2.message_count = p.2.messages.length)
    (op : StoreOp) :
    ∀ p ∈ (applyOp db op).conversations,
      p.2.message_count = p.2.messages.length := by
  cases op with
  | create t m now =>
    intro p hp
    simp only [applyOp, Database.create_conversation] at hp
    rcases List.mem_append.mp hp with hp | hp
    · exact h p hp
    · rcases List.mem_singleton.mp hp with rfl
      rfl
  | update cid msgs now =>
    intro p hp
    simp only [applyOp, Database.update_conversation] at hp
    by_cases hc : (db.conversations.lookup cid).isSome = true
    · rw [if_pos hc] at hp
      rcases List.mem_map.mp hp with ⟨q, hq, rfl⟩
      by_cases h1 : q.1 = cid
      · rw [if_pos h1]
        rfl
      · rw [if_neg h1]
        exact h q hq
    · rw [if_neg hc] at hp
      exact h p hp
  | delete cid =>
    intro p hp
    simp only [applyOp, Database.delete_conversation] at hp
    by_cases hc : (db.conversations.lookup cid).isSome = true
    · rw [if_pos hc] at hp
      exact h p (List.mem_of_mem_filter hp)
    · rw [if_neg hc] at hp
      exact h p hp

theorem countInvariant_applyOps (ops : List StoreOp) :
    ∀ db, (∀ p ∈ db.conversations, p.2.message_count = p.2.messages.length) →
      ∀ p ∈ (applyOps db ops).conversations,
        p.2.message_count = p.2.messages.length := by
  induction ops with
  | nil => intro db h; simpa [applyOps] using h
  | cons op ops ih =>
    intro db h
    exact ih (applyOp db op) (countInvariant_applyOp db h op)

/-- C2: For all sequences of create, update and delete operations starting
from the empty Conversation Store, every stored record satisfies
`message_count = messages.length` (create stores an empty list with count 0;
update stores the new list with count equal to its length). -/
theorem messageCount_invariant (ops : List StoreOp) :
    ∀ p ∈ (applyOps Database.empty ops).conversations,
      p.2.message_count = p.2.messages.length :=
  countInvariant_applyOps ops Database.empty (by intro p hp; cases hp)

/-- Witness for C2 at a concrete operation sequence. -/
theorem messageCount_invariant_witness :
    ((1 : Nat), ConversationRecord.mk 1 "a" "m" 0 1 1 [Message.mk "user" "hi"]) ∈
      (applyOps Database.empty [StoreOp.create "a" "m" 0,
        StoreOp.update 1 [Message.mk "user" "hi"] 1]).conversations
    ∧ (ConversationRecord.mk 1 "a" "m" 0 1 1 [Message.mk "user" "hi"]).message_count
        = (ConversationRecord.mk 1 "a" "m" 0 1 1 [Message.mk "user" "hi"]).messages.length :=
  ⟨by decide, messageCount_invariant
    [StoreOp.create "a" "m" 0, StoreOp.update 1 [Message.mk "user" "hi"] 1]
    (1, ConversationRecord.mk 1 "a" "m" 0 1 1 [Message.mk "user" "hi"])
    (by decide)⟩

/-! ### C1: id allocation -/

/-- C1 counterexample: ids are not previously-unused across deletes. The
second create is assigned id 2; after deleting record 2 (the maximum), the
next create is assigned id 2 again — the documented max+1 rule reuses the
deleted id, contradicting the claim that every assigned id is
previously-unused for every operation sequence. -/
theorem create_reuses_deleted_max_id :
    ((Database.empty.create_conversation "a" "m" 0).1.create_conversation
        "b" "m" 1).2 = 2
    ∧ (((Database.empty.create_conversation "a" "m" 0).1.create_conversation
        "b" "m" 1).1.delete_conversation 2).2 = true
    ∧ ((((Database.empty.create_conversation "a" "m" 0).1.create_conversation
        "b" "m" 1).1.delete_conversation 2).1.create_conversation
        "c" "m" 2).2 = 2 := by
  decide

/-- C1 (amended): create assigns max existing id + 1 (or 1 on an empty
store); the assigned id is strictly greater than every id currently in the
store — in particular, after deleting an id while a strictly higher id
remains, a subsequent create does not reuse the deleted id. (Ids of deleted
maximal records may be reused, so ids are not globally previously-unused.) -/
theorem create_id_spec (db : Database) (title model : String) (now : Nat) :
    (db.conversations = [] → (db.create_conversation title model now).2 = 1)
  ∧ (∀ k ∈ db.conversations.map Prod.fst,
      k < (db.create_conversation title model now).2)
  ∧ (∀ k j, k ∈ db.conversations.map Prod.fst →
      j ∈ db.conversations.map Prod.fst → k < j →
      (((db.delete_conversation k).1.create_conversation title model now).2 ≠ k)) := by
  refine ⟨?_, ?_, ?_⟩
  · intro he
    simp [Database.create_conversation, Database.getNextId, he]
  · intro k hk
    exact getNextId_gt db k hk
  · intro k j hk hj hkj
    have hks : (db.conversations.lookup k).isSome = true :=
      lookup_isSome_of_mem_keys _ k hk
    have hdel : (db.delete_conversation k).1
        = ⟨db.conversations.filter fun p => p.1 != k⟩ := by
      simp [Database.delete_conversation, hks]
    rw [hdel]
    have hjmem : j ∈ (db.conversations.filter fun p => p.1 != k).map Prod.fst := by
      rcases List.mem_map.mp hj with ⟨p, hp, rfl⟩
      refine List.mem_map.mpr ⟨p, ?_, rfl⟩
      refine List.mem_filter.mpr ⟨hp, ?_⟩
      simp only [bne_iff_ne, ne_eq]
      exact fun he => absurd (he ▸ hkj) (lt_irrefl k)
    have hlt : j < ((⟨db.conversations.filter fun p => p.1 != k⟩ :
        Database).create_conversation title model now).2 :=
      getNextId_gt _ j hjmem
    intro he
    rw [he] at hlt
    exact absurd (lt_trans hkj hlt) (lt_irrefl k)

/-- Witness for C1 (amended): with records 1 and 2 present, deleting id 1
and creating again does not hand id 1 back. -/
theorem create_id_spec_witness :
    ((((Database.empty.create_conversation "a" "m" 0).1.create_conversation
        "b" "m" 1).1.delete_conversation 1).1.create_conversation
        "c" "m" 2).2 ≠ 1 :=
  (create_id_spec _ "c" "m" 2).2.2 1 2 (by decide) (by decide) (by decide)

/-! ### C5 / C10: search -/

/-- C5: a summary is returned by `search_conversations` iff the lowercased
query occurs as a substring of the lowercased title or of the lowercased
serialized message content of some stored record and the summary is that
record's summary; and the results are sorted by `updated_at` descending
(the `listAll` sort order). -/
theorem search_spec (db : Database) (query : String) (s : ConversationSummary) :
    (s ∈ db.search_conversations query ↔
      ∃ p ∈ db.conversations,
        (strInStr (strLower query) (strLower p.2.title) = true ∨
          strInStr (strLower query) (strLower (dumpsMessages p.2.messages)) = true)
        ∧ s = toSummary p.2)
  ∧ (db.search_conversations query).Pairwise
      (fun a b => b.updated_at ≤ a.updated_at) := by
  constructor
  · rw [Database.search_conversations, (sortByUpdatedAtDesc_perm _).mem_iff,
      List.mem_filterMap]
    constructor
    · rintro ⟨p, hp, hf⟩
      by_cases hm : matchesQuery (strLower query) p.2 = true
      · rw [if_pos hm] at hf
        refine ⟨p, hp, ?_, (Option.some.inj hf).symm⟩
        simpa [matchesQuery, Bool.or_eq_true] using hm
      · rw [if_neg hm] at hf
        cases hf
    · rintro ⟨p, hp, hor, rfl⟩
      refine ⟨p, hp, ?_⟩
      have hm : matchesQuery (strLower query) p.2 = true := by
        simpa [matchesQuery, Bool.or_eq_true] using hor
      rw [if_pos hm]
  · exact sortByUpdatedAtDesc_sorted _

/-- Witness for C5: a record matching only in a message body and a record
matching only in the title are both returned, for a mixed-case query. -/
theorem search_spec_witness :
    (toSummary (ConversationRecord.mk 1 "Weather talk" "m" 0 0 0 []) ∈
      (Database.mk [(1, ConversationRecord.mk 1 "Weather talk" "m" 0 0 0 []),
        (2, ConversationRecord.mk 2 "Chat two" "m" 0 0 1
          [Message.mk "user" "the Weather is nice"])]).search_conversations
        "weaTHer")
  ∧ (toSummary (ConversationRecord.mk 2 "Chat two" "m" 0 0 1
        [Message.mk "user" "the Weather is nice"]) ∈
      (Database.mk [(1, ConversationRecord.mk 1 "Weather talk" "m" 0 0 0 []),
        (2, ConversationRecord.mk 2 "Chat two" "m" 0 0 1
          [Message.mk "user" "the Weather is nice"])]).search_conversations
        "weaTHer")
  ∧ strInStr (strLower "weaTHer")
      (strLower (dumpsMessages [Message.mk "user" "the Weather is nice"])) = true
  ∧ strInStr (strLower "weaTHer") (strLower "Chat two") = false :=
  ⟨(search_spec _ "weaTHer" _).1.mpr
      ⟨(1, ConversationRecord.mk 1 "Weather talk" "m" 0 0 0 []),
        by decide, Or.inl (by decide), rfl⟩,
   (search_spec _ "weaTHer" _).1.mpr
      ⟨(2, ConversationRecord.mk 2 "Chat two" "m" 0 0 1
          [Message.mk "user" "the Weather is nice"]),
        by decide, Or.inr (by decide), rfl⟩,
   by decide, by decide⟩

/-- C10: search returns each conversation at most once — if the stored
record ids are pairwise distinct, so are the ids of the returned summaries,
even when a query matches both the title and the message content of the
same record. -/
theorem search_no_duplicates (db : Database) (query : String)
    (h : (db.conversations.map fun p => p.2.id).Nodup) :
    ((db.search_conversations query).map fun s => s.id).Nodup := by
  have hperm : (db.search_conversations query).Perm
      (db.conversations.filterMap fun p =>
        if matchesQuery (strLower query) p.2 then some (toSummary p.2) else none) :=
    sortByUpdatedAtDesc_perm _
  rw [List.Perm.nodup_iff (hperm.map fun s => s.id)]
  rw [filterMap_if_eq_filter_map, List.map_map]
  have he : ((fun s : ConversationSummary => s.id) ∘
      (fun p : Nat × ConversationRecord => toSummary p.2))
      = fun p : Nat × ConversationRecord => p.2.id := rfl
  rw [he]
  exact ((List.filter_sublist _).map _).nodup h

/-- Witness for C10: a record whose title and message content both contain
the query appears exactly once (distinct ids stay distinct). -/
theorem search_no_duplicates_witness :
    strInStr (strLower "x") (strLower "x marks") = true
  ∧ strInStr (strLower "x")
      (strLower (dumpsMessages [Message.mk "user" "an x here"])) = true
  ∧ (((Database.mk [(1, ConversationRecord.mk 1 "x marks" "m" 0 0 1
        [Message.mk "user" "an x here"])]).search_conversations "x").map
          fun s => s.id).Nodup :=
  ⟨by decide, by decide,
   search_no_duplicates
     (Database.mk [(1, ConversationRecord.mk 1 "x marks" "m" 0 0 1
        [Message.mk "user" "an x here"])]) "x" (by decide)⟩

/-! ### C6: listAll ordering -/

/-- C6 counterexample: two records share `updated_at` and are returned in
insertion order (ids ascending: 1 then 2), not with id descending as the
claimed secondary key — the claimed lexicographic order is violated. -/
theorem listAll_tie_not_id_desc :
    ((((Database.empty.create_conversation "a" "m" 5).1.create_conversation
        "b" "m" 5).1.get_all_conversations).map fun s => s.id) = [1, 2]
  ∧ ¬ (((Database.empty.create_conversation "a" "m" 5).1.create_conversation
        "b" "m" 5).1.get_all_conversations).Pairwise
      (fun a b => b.updated_at < a.updated_at ∨
        (b.updated_at = a.updated_at ∧ b.id < a.id)) := by
  constructor
  · decide
  · decide

/-- C6 (amended): `get_all_conversations` returns all records (as summaries,
without message bodies), sorted by `updated_at` descending; ties are broken
deterministically by store insertion (iteration) order — the sort is stable —
not by id descending. -/
theorem listAll_sorted (db : Database) :
    (db.get_all_conversations).Pairwise
      (fun a b => b.updated_at ≤ a.updated_at)
  ∧ (db.get_all_conversations).Perm
      (db.conversations.map fun p => toSummary p.2)
  ∧ ∀ t : Nat, (db.get_all_conversations).filter (fun s => s.updated_at == t)
      = (db.conversations.map fun p => toSummary p.2).filter
          (fun s => s.updated_at == t) :=
  ⟨sortByUpdatedAtDesc_sorted _, sortByUpdatedAtDesc_perm _,
   fun t => filter_sortByUpdatedAtDesc _ t⟩

/-! ### C8 / C9: update -/

/-- C8: update followed by get returns a record whose messages list is the
list written (same elements, same order) and whose message_count equals its
length. -/
theorem update_get_roundtrip (db : Database) (cid : Nat) (msgs : List Message)
    (now : Nat) (r : ConversationRecord)
    (h : db.conversations.lookup cid = some r) :
    (db.update_conversation cid msgs now).2 = true
  ∧ ∃ r', (db.update_conversation cid msgs now).1.get_conversation cid = some r'
      ∧ r'.messages = msgs ∧ r'.message_count = msgs.length := by
  have hs : (db.conversations.lookup cid).isSome = true := by rw [h]; rfl
  refine ⟨by simp [Database.update_conversation, hs], ?_⟩
  refine ⟨{ r with
              messages := msgs,
              message_count := msgs.length,
              updated_at := now }, ?_, rfl, rfl⟩
  simp only [Database.update_conversation, if_pos hs, Database.get_conversation]
  rw [lookup_map_update, h]
  rfl

/-- Witness for C8 at a concrete store, id and message list. -/
theorem update_get_roundtrip_witness :
    ((Database.mk [(1, ConversationRecord.mk 1 "t" "m" 0 0 0 [])]).update_conversation
        1 [Message.mk "user" "q", Message.mk "assistant" "a"] 7).2 = true
  ∧ ∃ r', (((Database.mk [(1, ConversationRecord.mk 1 "t" "m" 0 0 0 [])]).update_conversation
        1 [Message.mk "user" "q", Message.mk "assistant" "a"] 7).1.get_conversation
        1) = some r'
      ∧ r'.messages = [Message.mk "user" "q", Message.mk "assistant" "a"]
      ∧ r'.message_count = [Message.mk "user" "q", Message.mk "assistant" "a"].length :=
  update_get_roundtrip (Database.mk [(1, ConversationRecord.mk 1 "t" "m" 0 0 0 [])])
    1 [Message.mk "user" "q", Message.mk "assistant" "a"] 7
    (ConversationRecord.mk 1 "t" "m" 0 0 0 []) (by decide)

/-- C9: a successful update changes only messages, message_count and
updated_at of the addressed record — its id, title, model and created_at are
unchanged, the key sequence (hence every other record and the store order)
is unchanged, and looking up any other key gives exactly what it gave
before; when the id does not exist, update returns false and the store is
returned unchanged. -/
theorem update_frame (db : Database) (cid : Nat) (msgs : List Message)
    (now : Nat) :
    (∀ r, db.conversations.lookup cid = some r →
      (db.update_conversation cid msgs now).2 = true
      ∧ ((db.update_conversation cid msgs now).1.conversations.map Prod.fst
          = db.conversations.map Prod.fst)
      ∧ (db.update_conversation cid msgs now).1.conversations.lookup cid
          = some { r with
                     messages := msgs,
                     message_count := msgs.length,
                     updated_at := now }
      ∧ (∀ k, k ≠ cid →
          (db.update_conversation cid msgs now).1.conversations.lookup k
            = db.conversations.lookup k))
  ∧ (db.conversations.lookup cid = none →
      db.update_conversation cid msgs now = (db, false)) := by
  constructor
  · intro r h
    have hs : (db.conversations.lookup cid).isSome = true := by rw [h]; rfl
    refine ⟨by simp [Database.update_conversation, hs], ?_, ?_, ?_⟩
    · simp only [Database.update_conversation, if_pos hs, List.map_map]
      have he : (Prod.fst ∘ fun p : Nat × ConversationRecord =>
          if p.1 = cid then (p.1, updateRecord msgs now p.2) else p)
          = Prod.fst := by
        funext p
        by_cases hp : p.1 = cid
        · simp [hp]
        · simp [hp]
      rw [he]
    · simp only [Database.update_conversation, if_pos hs]
      rw [lookup_map_update, h]
      rfl
    · intro k hk
      simp only [Database.update_conversation, if_pos hs]
      exact lookup_map_update_other _ cid k _ hk
  · intro h
    have hs : (db.conversations.lookup cid).isSome = false := by rw [h]; rfl
    simp [Database.update_conversation, hs]

/-- Witness for C9: updating id 1 leaves record 2 untouched; updating a
missing id 9 returns false with the store unchanged. -/
theorem update_frame_witness :
    (((Database.mk [(1, ConversationRecord.mk 1 "t" "m" 0 0 0 []),
        (2, ConversationRecord.mk 2 "u" "m" 0 0 0 [])]).update_conversation
        1 [Message.mk "user" "q"] 7).1.conversations.lookup 2
      = (Database.mk [(1, ConversationRecord.mk 1 "t" "m" 0 0 0 []),
        (2, ConversationRecord.mk 2 "u" "m" 0 0 0 [])]).conversations.lookup 2)
  ∧ ((Database.mk [(1, ConversationRecord.mk 1 "t" "m" 0 0 0 [])]).update_conversation
        9 [Message.mk "user" "q"] 7
      = ((Database.mk [(1, ConversationRecord.mk 1 "t" "m" 0 0 0 [])]), false)) :=
  ⟨((update_frame (Database.mk [(1, ConversationRecord.mk 1 "t" "m" 0 0 0 []),
      (2, ConversationRecord.mk 2 "u" "m" 0 0 0 [])]) 1 [Message.mk "user" "q"] 7).1
      (ConversationRecord.mk 1 "t" "m" 0 0 0 []) (by decide)).2.2.2 2 (by decide),
   (update_frame (Database.mk [(1, ConversationRecord.mk 1 "t" "m" 0 0 0 [])])
      9 [Message.mk "user" "q"] 7).2 (by decide)⟩

/-! ### C4: generate before initialize -/

/-- C4: while the orchestrator is Uninitialized (`llm is None`, i.e. no
prior successful initialize), `get_ai_response` raises the
not-initialized RuntimeError (the spec's `NotInitializedError`) and
performs no remote call, whatever the input, history and overrides. -/
theorem generate_uninitialized {H : Type} (st : EngineState)
    (invoke : LLMClient → List (PromptMsg H) → Except String String)
    (user_input : String) (chat_history : List H) (temperature : Option Rat)
    (max_tokens : Option Nat) (system_prompt : Option String)
    (h : st.llm = none) :
    (get_ai_response st invoke user_input chat_history temperature
        max_tokens system_prompt).result
      = Except.error "LLM not initialized. Please restart the app."
    ∧ (get_ai_response st invoke user_input chat_history temperature
        max_tokens system_prompt).remote_calls = [] := by
  unfold get_ai_response
  rw [h]
  exact ⟨rfl, rfl⟩

/-- Witness for C4: a concrete uninitialized state, with a remote client
that would answer, still errors and records no remote call. -/
theorem generate_uninitialized_witness :
    (get_ai_response (H := String)
        ⟨none, ⟨"llama-3.3-70b-versatile", 3 / 10, 2048, none, true⟩⟩
        (fun _ _ => Except.ok "hello") "hi" ["hi"] none none none).result
      = Except.error "LLM not initialized. Please restart the app."
    ∧ (get_ai_response (H := String)
        ⟨none, ⟨"llama-3.3-70b-versatile", 3 / 10, 2048, none, true⟩⟩
        (fun _ _ => Except.ok "hello") "hi" ["hi"] none none none).remote_calls
      = [] :=
  generate_uninitialized _ _ "hi" ["hi"] none none none rfl

/-! ### C3: remote-failure classification -/

set_option maxRecDepth 8192 in
/-- C3: when the orchestrator is initialized and the remote client raises
an error `e`, `get_ai_response` returns an ordinary text response (never
an exception): the lowercased error text is matched in order against
rate-limit, credential/authentication, timeout and model-availability
indicators, each yielding its distinct advisory; anything unmatched yields
the generic advisory carrying the raw error text; in particular an error
containing "rate limit" (case-insensitively) yields the rate-limit
advisory. -/
theorem remote_error_classification {H : Type} (st : EngineState)
    (c : LLMClient)
    (invoke : LLMClient → List (PromptMsg H) → Except String String)
    (user_input : String) (chat_history : List H) (temperature : Option Rat)
    (max_tokens : Option Nat) (system_prompt : Option String) (e : String)
    (hllm : st.llm = some c)
    (herr : ∀ cl msgs, invoke cl msgs = Except.error e) :
    (get_ai_response st invoke user_input chat_history temperature
        max_tokens system_prompt).result
      = Except.ok (classify_error st.current_config e)
  ∧ (strInStr "rate limit" (strLower e) = true →
      classify_error st.current_config e = rate_limit_msg)
  ∧ ((strInStr "rate_limit" (strLower e) || strInStr "rate limit" (strLower e))
        = true →
      classify_error st.current_config e = rate_limit_msg)
  ∧ ((strInStr "rate_limit" (strLower e) || strInStr "rate limit" (strLower e))
        = false →
     (strInStr "api_key" (strLower e) || strInStr "authentication" (strLower e))
        = true →
      classify_error st.current_config e = api_key_msg)
  ∧ ((strInStr "rate_limit" (strLower e) || strInStr "rate limit" (strLower e))
        = false →
     (strInStr "api_key" (strLower e) || strInStr "authentication" (strLower e))
        = false →
     strInStr "timeout" (strLower e) = true →
      classify_error st.current_config e = timeout_msg)
  ∧ ((strInStr "rate_limit" (strLower e) || strInStr "rate limit" (strLower e))
        = false →
     (strInStr "api_key" (strLower e) || strInStr "authentication" (strLower e))
        = false →
     strInStr "timeout" (strLower e) = false →
     (strInStr "model" (strLower e) || strInStr "not found" (strLower e))
        = true →
      classify_error st.current_config e
        = model_error_msg st.current_config.model)
  ∧ ((strInStr "rate_limit" (strLower e) || strInStr "rate limit" (strLower e))
        = false →
     (strInStr "api_key" (strLower e) || strInStr "authentication" (strLower e))
        = false →
     strInStr "timeout" (strLower e) = false →
     (strInStr "model" (strLower e) || strInStr "not found" (strLower e))
        = false →
      classify_error st.current_config e = generic_error_msg e
      ∧ strInStr e (generic_error_msg e) = true)
  ∧ (rate_limit_msg ≠ api_key_msg ∧ rate_limit_msg ≠ timeout_msg
      ∧ api_key_msg ≠ timeout_msg
      ∧ model_error_msg st.current_config.model ≠ rate_limit_msg
      ∧ model_error_msg st.current_config.model ≠ api_key_msg
      ∧ model_error_msg st.current_config.model ≠ timeout_msg) := by
  refine ⟨?_, ?_, ?_, ?_, ?_, ?_, ?_, ?_, ?_, ?_, ?_, ?_, ?_⟩
  · unfold get_ai_response
    rw [hllm]
    simp only [herr]
  · intro h1
    simp [classify_error, h1]
  · intro h1
    simp [classify_error, h1]
  · intro h1 h2
    simp [classify_error, h1, h2]
  · intro h1 h2 h3
    simp [classify_error, h1, h2, h3]
  · intro h1 h2 h3 h4
    simp [classify_error, h1, h2, h3, h4]
  · intro h1 h2 h3 h4
    refine ⟨by simp [classify_error, h1, h2, h3, h4], ?_⟩
    exact decide_eq_true ⟨"⚠️ **Error**: ".data,
      "\n\nPlease try again or contact support if the issue persists.".data, rfl⟩
  · decide
  · decide
  · decide
  · exact concat_ne_of_char _ _ _ 5 (by decide) (by decide) _
  · exact concat_ne_of_char _ _ _ 5 (by decide) (by decide) _
  · exact concat_ne_of_char _ _ _ 5 (by decide) (by decide) _

/-- Witness for C3: a remote client raising "Rate limit exceeded" makes a
ready orchestrator return the rate-limit advisory as an ordinary result. -/
theorem remote_error_classification_witness :
    (get_ai_response (H := String)
        ⟨some ⟨"llama-3.3-70b-versatile", 3 / 10, 2048, true⟩,
          ⟨"llama-3.3-70b-versatile", 3 / 10, 2048, none, true⟩⟩
        (fun _ _ => Except.error "Rate limit exceeded")
        "hi" ["hi"] none none none).result
      = Except.ok rate_limit_msg := by
  have h := remote_error_classification (H := String)
    ⟨some ⟨"llama-3.3-70b-versatile", 3 / 10, 2048, true⟩,
      ⟨"llama-3.3-70b-versatile", 3 / 10, 2048, none, true⟩⟩
    ⟨"llama-3.3-70b-versatile", 3 / 10, 2048, true⟩
    (fun _ _ => Except.error "Rate limit exceeded")
    "hi" ["hi"] none none none "Rate limit exceeded" rfl (fun _ _ => rfl)
  rw [h.1, h.2.1 (by decide)]

/-! ### C7: prompt structure -/

/-- C7 counterexample: with a supplied custom system prompt that is the
empty string, the built prompt's system message is the default persona
text, not the supplied custom prompt — Python's `system_prompt or
default_prompt` treats the empty string like None. -/
theorem empty_system_prompt_uses_default :
    format_messages (H := Unit) (some "") [(), ()] "hi"
      = [PromptMsg.system default_prompt, PromptMsg.hist (), PromptMsg.human "hi"]
  ∧ format_messages (H := Unit) (some "") [(), ()] "hi"
      ≠ [PromptMsg.system "", PromptMsg.hist (), PromptMsg.human "hi"]
  ∧ default_prompt ≠ "" := by
  refine ⟨rfl, ?_, ?_⟩
  · decide
  · decide

/-- C7 (amended): for every input, history and configuration, an
initialized `get_ai_response` sends the remote client exactly one message
list: one system message — the custom system prompt when a non-empty one is
supplied, the default persona text when none or an empty one is supplied —
followed by all prior history entries except the most recent, followed by
the new human input as the final turn. -/
theorem prompt_structure {H : Type} (st : EngineState) (c : LLMClient)
    (invoke : LLMClient → List (PromptMsg H) → Except String String)
    (user_input : String) (chat_history : List H) (temperature : Option Rat)
    (max_tokens : Option Nat) (system_prompt : Option String)
    (hllm : st.llm = some c) (_hne : chat_history ≠ []) :
    (get_ai_response st invoke user_input chat_history temperature
        max_tokens system_prompt).remote_calls
      = [format_messages system_prompt chat_history user_input]
  ∧ (∀ s, system_prompt = some s → s ≠ "" →
      format_messages system_prompt chat_history user_input
        = PromptMsg.system s ::
            (chat_history.dropLast.map PromptMsg.hist
              ++ [PromptMsg.human user_input]))
  ∧ (system_prompt = none ∨ system_prompt = some "" →
      format_messages system_prompt chat_history user_input
        = PromptMsg.system default_prompt ::
            (chat_history.dropLast.map PromptMsg.hist
              ++ [PromptMsg.human user_input]))
  ∧ (format_messages system_prompt chat_history user_input).countP
        (fun m => isSystemMsg m) = 1
  ∧ (format_messages system_prompt chat_history user_input).getLast?
      = some (PromptMsg.human user_input) := by
  refine ⟨?_, ?_, ?_, ?_, ?_⟩
  · unfold get_ai_response
    rw [hllm]
  · intro s hs hne'
    subst hs
    simp [format_messages, systemTextOf, hne']
  · intro hs
    rcases hs with hs | hs <;> subst hs <;> simp [format_messages, systemTextOf]
  · rw [format_messages]
    rw [List.countP_cons]
    rw [List.countP_append, List.countP_map]
    simp [isSystemMsg, Function.comp]
  · rw [format_messages, ← List.cons_append]
    exact List.getLast?_concat _

/-- Witness for C7 (amended): a non-empty custom prompt and a two-entry
history produce the expected three-message prompt. -/
theorem prompt_structure_witness :
    format_messages (H := String) (some "Be brief") ["u1", "u2"] "next"
      = PromptMsg.system "Be brief" ::
          ((["u1", "u2"] : List String).dropLast.map PromptMsg.hist
            ++ [PromptMsg.human "next"]) :=
  ((prompt_structure (H := String)
      ⟨some ⟨"m", 0, 2048, true⟩, ⟨"m", 0, 2048, none, true⟩⟩
      ⟨"m", 0, 2048, true⟩ (fun _ _ => Except.ok "ok") "next" ["u1", "u2"]
      none none (some "Be brief") rfl (by decide)).2.1)
    "Be brief" rfl (by decide)

end ContextIQ
